import Mathlib

/-!
Verification of the YouTube-to-whiteboard front-end's core service logic.

The service module is TypeScript; its string-processing pipeline
(candidate-JSON extraction, JSON parsing, error classification,
video-ID extraction, style description, image-part scanning) is
shallowly embedded here.  JavaScript strings are modelled as `List Char`.
-/

/-- JavaScript strings are modelled as lists of characters. -/
abbrev Str := List Char

/-- Convert a Lean string literal to the `Str` model. -/
def strL (s : String) : Str := s.data

/-- The `{` character, named to keep brace characters out of literals. -/
def lbrace : Char := Char.ofNat 123

/-- The `}` character, named to keep brace characters out of literals. -/
def rbrace : Char := Char.ofNat 125

/-! ## JavaScript string primitives -/

/-- The whitespace class used by `String.prototype.trim` and the regex
class `\s`, restricted to its ASCII members (the service only ever
meets ASCII whitespace). -/
def jsSpace (c : Char) : Bool :=
  c == ' ' || c == '\t' || c == '\n' || c == '\r' || c == '\x0b' || c == '\x0c'

/-- `String.prototype.trim`. -/
def jsTrim (s : Str) : Str :=
  ((s.dropWhile jsSpace).reverse.dropWhile jsSpace).reverse

/-- `String.prototype.toLowerCase` (ASCII case mapping). -/
def jsLower (s : Str) : Str := s.map Char.toLower

/-- `String.prototype.startsWith`. -/
def startsWithB : Str → Str → Bool
  | _, [] => true
  | [], _ :: _ => false
  | c :: cs, d :: ds => c == d && startsWithB cs ds

/-- `hay.includes(sub)`: substring containment. -/
def containsSubstr : Str → Str → Bool
  | [], sub => sub.isEmpty
  | c :: t, sub => startsWithB (c :: t) sub || containsSubstr t sub

/-- First index of a character (`String.prototype.indexOf`), `none` for `-1`. -/
def firstIdxChar : Str → Char → Option Nat
  | [], _ => none
  | c :: t, d =>
    if c == d then some 0
    else match firstIdxChar t d with
      | some k => some (k + 1)
      | none => none

/-- Last index of a character (`String.prototype.lastIndexOf`), `none` for `-1`. -/
def lastIdxChar (s : Str) (d : Char) : Option Nat :=
  match firstIdxChar s.reverse d with
  | some k => some (s.length - 1 - k)
  | none => none

/-- `s.substring(i, j + 1)`: the characters at indices `i` through `j`. -/
def sliceIncl (s : Str) (i j : Nat) : Str :=
  (s.drop i).take (j + 1 - i)

/-- Worker for `splitOnSub`.  Fuel-based recursion (the fuel dominates the
input length, and every step consumes at least one character) keeps the
definition kernel-reducible. -/
def splitGo : Nat → Char → Str → Str → Str → List Str
  | 0, _, _, _, cur => [cur.reverse]
  | fuel + 1, s0, srest, hay, cur =>
    match hay with
    | [] => [cur.reverse]
    | c :: rest =>
      if c == s0 && startsWithB rest srest then
        cur.reverse :: splitGo fuel s0 srest (rest.drop srest.length) []
      else
        splitGo fuel s0 srest rest (c :: cur)

/-- `hay.split(sep)` for a non-empty separator: split at each leftmost,
non-overlapping occurrence.  (The service only splits on the literal
separators `"v="`, `"&"`, `"youtu.be/"` and `"?"`.) -/
def splitOnSub (hay sep : Str) : List Str :=
  match sep with
  | [] => [hay]
  | s0 :: srest => splitGo (hay.length + 1) s0 srest hay []

/-! ## Style selection (`types.ts`, `geminiService.ts` lines 34-45) -/

/-- The `VisualStyle` enumeration from `types.ts`. -/
inductive VisualStyle where
  | WHITEBOARD
  | NOTEBOOK
  | CUSTOM
deriving DecidableEq

/-- Default style text used when `Custom` carries no description. -/
def customDefault : Str := strL "A creative data visualization."

/-- The `styleDescription` switch in `analyzeVideoContent`.  The optional
`customStylePrompt` argument is `none` when the caller omits it; the
JavaScript `||` fallback also treats an empty string as missing. -/
def styleDescription (style : VisualStyle) (customStylePrompt : Option Str) : Str :=
  match style with
  | .WHITEBOARD =>
    strL "A clean, hand-drawn whiteboard style infographic. White background, black marker lines, simple doodles, red accent highlights. Professional yet playful educational drawing."
  | .NOTEBOOK =>
    strL "A sketch on lined notebook paper. Blue ballpoint pen aesthetic, scribbles, doodles, handwritten text annotations. Academic and messy but legible."
  | .CUSTOM =>
    match customStylePrompt with
    | some s => if s = [] then customDefault else s
    | none => customDefault

/-! ## Video-ID extraction (`geminiService.ts` lines 47-59) -/

/-- The video-ID extraction in `analyzeVideoContent`:
`url.split("v=")[1].split("&")[0]` when the URL contains `"v="`, else
`url.split("youtu.be/")[1].split("?")[0]` when it contains `"youtu.be/"`,
else the identifier stays empty.  Both `split` accesses at index 1 are
defined because the preceding `includes` check guarantees at least two
split parts, so the surrounding `try`/`catch` never fires. -/
def extractVideoId (videoUrl : Str) : Str :=
  if containsSubstr videoUrl (strL "v=") then
    (splitOnSub ((splitOnSub videoUrl (strL "v=")).getD 1 []) (strL "&")).getD 0 []
  else if containsSubstr videoUrl (strL "youtu.be/") then
    (splitOnSub ((splitOnSub videoUrl (strL "youtu.be/")).getD 1 []) (strL "?")).getD 0 []
  else []

/-- The `searchHint` string built from the extracted identifier. -/
def searchHint (videoId : Str) : Str :=
  if videoId = [] then [] else strL "(Video ID: " ++ videoId ++ strL ")"

/-! ## JSON values and `JSON.parse` (used by the analysis-reply parser) -/

/-- JSON values, as produced by `JSON.parse`.  Numbers keep their source
lexeme: the service never computes with them, it only tests truthiness
and occasionally stringifies them. -/
inductive Json where
  | jnull
  | jbool (b : Bool)
  | jnum (lex : Str)
  | jstr (s : Str)
  | jarr (elems : List Json)
  | jobj (fields : List (Str × Json))
deriving Repr

/-- The whitespace accepted by the JSON grammar (space, tab, LF, CR). -/
def jsonWsChar (c : Char) : Bool :=
  c == ' ' || c == '\t' || c == '\n' || c == '\r'

/-- Skip JSON whitespace. -/
def skipJWs (s : Str) : Str := s.dropWhile jsonWsChar

/-- Value of a hexadecimal digit. -/
def hexVal (c : Char) : Option Nat :=
  if c.isDigit then some (c.toNat - 48)
  else if 97 ≤ c.toNat && c.toNat ≤ 102 then some (c.toNat - 87)
  else if 65 ≤ c.toNat && c.toNat ≤ 70 then some (c.toNat - 55)
  else none

/-- Parse the body of a JSON string (the opening quote already consumed),
returning the decoded characters and the rest of the input. -/
def parseJStrBody : Str → Str → Option (Str × Str)
  | [], _ => none
  | c :: t, acc =>
    if c == '"' then some (acc.reverse, t)
    else if c == '\\' then
      match t with
      | [] => none
      | e :: t2 =>
        if e == '"' then parseJStrBody t2 ('"' :: acc)
        else if e == '\\' then parseJStrBody t2 ('\\' :: acc)
        else if e == '/' then parseJStrBody t2 ('/' :: acc)
        else if e == 'b' then parseJStrBody t2 ('\x08' :: acc)
        else if e == 'f' then parseJStrBody t2 ('\x0c' :: acc)
        else if e == 'n' then parseJStrBody t2 ('\n' :: acc)
        else if e == 'r' then parseJStrBody t2 ('\r' :: acc)
        else if e == 't' then parseJStrBody t2 ('\t' :: acc)
        else if e == 'u' then
          match t2 with
          | h1 :: h2 :: h3 :: h4 :: t3 =>
            match hexVal h1, hexVal h2, hexVal h3, hexVal h4 with
            | some a, some b, some c2, some d =>
              parseJStrBody t3 (Char.ofNat (((a * 16 + b) * 16 + c2) * 16 + d) :: acc)
            | _, _, _, _ => none
          | _ => none
        else none
    else if c.toNat < 32 then none
    else parseJStrBody t (c :: acc)

/-- Optional fraction part of a JSON number. -/
def fracOpt (s : Str) : Option (Str × Str) :=
  match s with
  | c :: t =>
    if c == '.' then
      match t.takeWhile Char.isDigit with
      | [] => none
      | ds => some (c :: ds, t.dropWhile Char.isDigit)
    else some ([], s)
  | [] => some ([], [])

/-- Optional exponent part of a JSON number. -/
def expOpt (s : Str) : Option (Str × Str) :=
  match s with
  | c :: t =>
    if c == 'e' || c == 'E' then
      let (sg, t2) : Str × Str :=
        match t with
        | d :: t1 => if d == '+' || d == '-' then ([d], t1) else ([], t)
        | [] => ([], [])
      match t2.takeWhile Char.isDigit with
      | [] => none
      | ds => some (c :: (sg ++ ds), t2.dropWhile Char.isDigit)
    else some ([], s)
  | [] => some ([], [])

/-- Fraction and exponent tail of a JSON number. -/
def numTail (intPart rest : Str) : Option (Str × Str) :=
  match fracOpt rest with
  | none => none
  | some (fr, r1) =>
    match expOpt r1 with
    | none => none
    | some (ex, r2) => some (intPart ++ fr ++ ex, r2)

/-- Parse a JSON number, returning its lexeme and the rest of the input. -/
def parseJNum (s : Str) : Option (Str × Str) :=
  let (sgn, s1) : Str × Str :=
    match s with
    | c :: t => if c == '-' then ([c], t) else ([], s)
    | [] => ([], [])
  match s1 with
  | [] => none
  | c :: t =>
    if c == '0' then numTail (sgn ++ [c]) t
    else if c.isDigit then
      numTail (sgn ++ c :: t.takeWhile Char.isDigit) (t.dropWhile Char.isDigit)
    else none

/-- Parser modes: a whole value, the members of an object (after the first
key position), or the items of an array (after the first item position). -/
inductive PMode where
  | value
  | members (acc : List (Str × Json))
  | items (acc : List Json)

/-- Recursive-descent JSON parser, fuelled so that it is structurally
recursive (hence kernel-reducible).  Each recursive call consumes input,
so fuel `2 * length + 8` in `jsonParse` is never exhausted. -/
def parseRun : Nat → PMode → Str → Option (Json × Str)
  | 0, _, _ => none
  | fuel + 1, mode, s =>
    match mode with
    | .value =>
      match skipJWs s with
      | [] => none
      | c :: t =>
        if c == '"' then
          match parseJStrBody t [] with
          | some (str, rest) => some (.jstr str, rest)
          | none => none
        else if c == lbrace then
          match skipJWs t with
          | d :: t2 => if d == rbrace then some (.jobj [], t2) else parseRun fuel (.members []) (d :: t2)
          | [] => none
        else if c == '[' then
          match skipJWs t with
          | d :: t2 => if d == ']' then some (.jarr [], t2) else parseRun fuel (.items []) (d :: t2)
          | [] => none
        else if startsWithB (c :: t) (strL "null") then some (.jnull, (c :: t).drop 4)
        else if startsWithB (c :: t) (strL "true") then some (.jbool true, (c :: t).drop 4)
        else if startsWithB (c :: t) (strL "false") then some (.jbool false, (c :: t).drop 5)
        else if c == '-' || c.isDigit then
          match parseJNum (c :: t) with
          | some (lex, rest) => some (.jnum lex, rest)
          | none => none
        else none
    | .members acc =>
      match s with
      | c :: t =>
        if c == '"' then
          match parseJStrBody t [] with
          | some (k, r1) =>
            match skipJWs r1 with
            | d :: r2 =>
              if d == ':' then
                match parseRun fuel .value r2 with
                | some (v, r3) =>
                  match skipJWs r3 with
                  | e :: r4 =>
                    if e == ',' then parseRun fuel (.members ((k, v) :: acc)) (skipJWs r4)
                    else if e == rbrace then some (.jobj ((k, v) :: acc).reverse, r4)
                    else none
                  | [] => none
                | none => none
              else none
            | [] => none
          | none => none
        else none
      | [] => none
    | .items acc =>
      match parseRun fuel .value s with
      | some (v, r1) =>
        match skipJWs r1 with
        | e :: r2 =>
          if e == ',' then parseRun fuel (.items (v :: acc)) r2
          else if e == ']' then some (.jarr (v :: acc).reverse, r2)
          else none
        | [] => none
      | none => none

/-- `JSON.parse`: parse one value and insist the rest is whitespace. -/
def jsonParse (s : Str) : Option Json :=
  match parseRun (2 * s.length + 8) .value s with
  | some (v, rest) => if (skipJWs rest).isEmpty then some v else none
  | none => none

/-! ## Candidate-JSON extraction (`geminiService.ts` lines 106-122) -/

/-- Three backticks, the fence delimiter of the markdown regex. -/
def fenceTicks : Str := strL "```"

/-- The lazy core of the fence regex: after the opening brace, scan for the
earliest closing brace that is followed (modulo whitespace) by a closing
fence.  This is exactly the behaviour of the lazy group
`(\x7b[\s\S]*?\x7d)` followed by `\s*` and three backticks: the lazy
quantifier grows the group one character at a time, and since a backtick is
not whitespace, `\s*` before the closing fence matches the maximal
whitespace run deterministically. -/
def lazyClose : Str → Str → Option Str
  | [], _ => none
  | c :: rest, acc =>
    if c == rbrace && startsWithB (rest.dropWhile jsSpace) fenceTicks then
      some ((lbrace :: acc.reverse) ++ [rbrace])
    else lazyClose rest (c :: acc)

/-- Try to match the fence regex at the start of `s`: three backticks, an
optional literal `json`, whitespace, then the lazily captured brace
group.  (Taking the optional `json` greedily is complete: if the input
continues with `json`, declining it leaves a `j` where `\s*` and the
opening brace are required, which always fails.) -/
def fenceAt (s : Str) : Option Str :=
  if startsWithB s fenceTicks then
    let r1 := s.drop 3
    let r2 := if startsWithB r1 (strL "json") then r1.drop 4 else r1
    match r2.dropWhile jsSpace with
    | c :: t => if c == lbrace then lazyClose t [] else none
    | [] => none
  else none

/-- Leftmost match of the fence regex
`/```(?:json)?\s*(\x7b[\s\S]*?\x7d)\s*```/` as used by `String.match`:
the first start position at which the pattern matches wins, and the
returned string is capture group 1. -/
def fenceSearch : Str → Option Str
  | [] => none
  | c :: t =>
    match fenceAt (c :: t) with
    | some g => some g
    | none => fenceSearch t

/-- The candidate-JSON selection applied to the trimmed reply text:
the fenced block's inner group if the regex matches, else the substring
from the first `\x7b` to the last `\x7d` when the latter comes strictly
later, else the trimmed text itself. -/
def extractCandidate (trimmed : Str) : Str :=
  match fenceSearch trimmed with
  | some inner => inner
  | none =>
    match firstIdxChar trimmed lbrace, lastIdxChar trimmed rbrace with
    | some i, some j => if j > i then sliceIncl trimmed i j else trimmed
    | some _, none => trimmed
    | none, _ => trimmed

/-- The candidate string the service parses for a given raw reply. -/
def candidateOf (text : Str) : Str := extractCandidate (jsTrim text)

/-! ## JavaScript value semantics used by the service -/

/-- Truthiness of a parsed JSON number: falsy exactly when its value is
zero, i.e. when no non-zero digit occurs before the exponent marker. -/
def numTruthy (lex : Str) : Bool :=
  (lex.takeWhile (fun c => c != 'e' && c != 'E')).any (fun c => c.isDigit && c != '0')

/-- JavaScript truthiness of a property-read result (`none` is
`undefined`). -/
def truthy : Option Json → Bool
  | none => false
  | some .jnull => false
  | some (.jbool b) => b
  | some (.jnum lex) => numTruthy lex
  | some (.jstr s) => !s.isEmpty
  | some (.jarr _) => true
  | some (.jobj _) => true

/-- Result of a JavaScript property read: a value (possibly `undefined`)
or a `TypeError` (property read on `null`). -/
inductive FieldRead where
  | val (v : Option Json)
  | typeErr

/-- Duplicate JSON keys resolve to the last occurrence, as in
`JSON.parse`. -/
def lookupLast (fields : List (Str × Json)) (k : Str) : Option Json :=
  fields.foldl (fun acc kv => if kv.1 = k then some kv.2 else acc) none

/-- `data.k` in JavaScript: a `TypeError` on `null`, a field lookup on an
object, and `undefined` on any other parsed value (none of the keys the
service reads is a built-in property of strings, numbers, booleans or
arrays). -/
def jsGet (j : Json) (k : Str) : FieldRead :=
  match j with
  | .jnull => .typeErr
  | .jobj fs => .val (lookupLast fs k)
  | _ => .val none

/-- `jsGet` with the (unreachable) `TypeError` case collapsed to
`undefined`; used where the surrounding code has already excluded
`null`. -/
def jsGetD (j : Json) (k : Str) : Option Json :=
  match jsGet j k with
  | .val v => v
  | .typeErr => none

/-- Worker for `jsToString`, fuelled to stay kernel-reducible; the left
summand stringifies one value, the right walks array elements (inside an
array, `null` prints as the empty string). -/
def jsToStrRun : Nat → Sum Json (List Json) → Str
  | 0, _ => []
  | fuel + 1, .inl v =>
    match v with
    | .jnull => strL "null"
    | .jbool true => strL "true"
    | .jbool false => strL "false"
    | .jnum lex => lex
    | .jstr s => s
    | .jobj _ => strL "[object Object]"
    | .jarr xs => jsToStrRun fuel (.inr xs)
  | fuel + 1, .inr l =>
    match l with
    | [] => []
    | [Json.jnull] => []
    | [v] => jsToStrRun fuel (.inl v)
    | Json.jnull :: v2 :: vs => ',' :: jsToStrRun fuel (.inr (v2 :: vs))
    | v :: v2 :: vs => jsToStrRun fuel (.inl v) ++ (',' :: jsToStrRun fuel (.inr (v2 :: vs)))

/-- `String(v)` for a parsed JSON value, as performed by
`new Error(data.error).message` (numbers are rendered by their lexeme,
which coincides with JavaScript for the integer literals the model
emits).  The fuel only needs to dominate the nesting depth of `v`;
`tryParse` passes a bound derived from the candidate string it parsed,
and for the non-array values the service actually meets any positive
fuel yields the same result. -/
def jsToString (fuel : Nat) (v : Json) : Str := jsToStrRun fuel (Sum.inl v)

/-! ## The analysis-reply parser (`geminiService.ts` lines 103-158) -/

/-- `"No response from AI analysis."` -/
def noResponseMsg : Str := strL "No response from AI analysis."

/-- `"Incomplete analysis data received."` -/
def incompleteMsg : Str := strL "Incomplete analysis data received."

/-- The generic invalid-format message. -/
def genericMsg : Str :=
  strL "AI analysis failed to produce valid data. The video might be inaccessible or the response format was invalid."

/-- Representative of the `SyntaxError` message thrown by a failing
`JSON.parse`.  Every such engine message mentions `JSON`
(e.g. `Unexpected end of JSON input`), and the catch block only ever
tests the message for emptiness and for containing `"JSON"`, so any
non-empty representative containing `JSON` is behaviourally exact. -/
def syntaxErrMsg : Str := strL "Unexpected token in JSON"

/-- The `TypeError` message for reading `.error` on a parsed `null`. -/
def nullReadErrMsg : Str :=
  strL "Cannot read properties of null (reading 'error')"

/-- The refusal phrases scanned for in the lowercased raw reply. -/
def refusalPhrases : List Str :=
  [strL "unavailable", strL "restricted", strL "cannot access",
   strL "unable to access", strL "sorry"]

/-- Whether the lowercased raw reply contains any refusal phrase. -/
def refusalAny (text : Str) : Bool :=
  refusalPhrases.any (fun ph => containsSubstr (jsLower text) ph)

/-- Keys read from the parsed reply. -/
def errorKey : Str := strL "error"

/-- Key of the required summary field. -/
def summaryKey : Str := strL "summary"

/-- Key of the required image-prompt field. -/
def imagePromptKey : Str := strL "imagePrompt"

/-- Key of the optional video-title field. -/
def videoTitleKey : Str := strL "videoTitle"

/-- The `AnalysisResponse` the service returns.  The TypeScript code
returns the parsed object through an unchecked cast, so the fields keep
their parsed JSON values. -/
structure AnalysisResponse where
  summary : Json
  imagePrompt : Json
  videoTitle : Option Json

/-- The catch block of `analyzeVideoContent`: scan the raw reply for
refusal phrases (surfacing the raw text on a hit), rethrow the caught
error when its message is non-empty and does not mention `JSON`, and
fall back to the generic invalid-format error. -/
def catchHandler (text emsg : Str) : Except Str AnalysisResponse :=
  if refusalAny text then .error text
  else if !emsg.isEmpty && !containsSubstr emsg (strL "JSON") then .error emsg
  else .error genericMsg

/-- The try block of `analyzeVideoContent` on the extracted candidate,
with every throw routed through the catch block: a `JSON.parse` failure
carries a `SyntaxError` message; a truthy `error` field throws its
stringified value; a falsy `summary` or `imagePrompt` throws the
incomplete-data message; otherwise the parsed object is returned. -/
def tryParse (text jsonStr : Str) : Except Str AnalysisResponse :=
  match jsonParse jsonStr with
  | none => catchHandler text syntaxErrMsg
  | some data =>
    match jsGet data errorKey with
    | .typeErr => catchHandler text nullReadErrMsg
    | .val errField =>
      if truthy errField then
        catchHandler text (jsToString (2 * jsonStr.length + 8) (errField.getD Json.jnull))
      else if !(truthy (jsGetD data summaryKey) && truthy (jsGetD data imagePromptKey)) then
        catchHandler text incompleteMsg
      else
        .ok { summary := (jsGetD data summaryKey).getD Json.jnull,
              imagePrompt := (jsGetD data imagePromptKey).getD Json.jnull,
              videoTitle := jsGetD data videoTitleKey }

/-- Parsing of one raw text-model reply by `analyzeVideoContent`: an
empty (or absent) reply fails with `noResponseMsg`; otherwise the
candidate JSON string is extracted from the trimmed text and parsed. -/
def analyzeReply (text : Str) : Except Str AnalysisResponse :=
  if text.isEmpty then .error noResponseMsg
  else tryParse text (candidateOf text)

/-- The system instruction sent with every analysis request. -/
def systemInstructionText : Str :=
  strL "You are an AI video analyst. Your primary goal is to accurately retrieve and visualize the specific content of YouTube videos given a URL. You must strictly verify that the content you find matches the specific video ID provided."

/-- The instruction text sent to the text model, assembled from the video
URL, the extracted identifier and the style description. -/
def promptText (videoUrl videoId styleDesc : Str) : Str :=
  strL "\n    I need to create a visual summary for a YouTube video located at: "
    ++ videoUrl ++ strL " " ++ searchHint videoId
    ++ strL "\n\n    TASK:\n    1. USE the 'googleSearch' tool to find specific information about this video.\n       - Search for the specific Video ID \""
    ++ videoId
    ++ strL "\".\n       - Locate the video Title, Channel, and a textual summary or transcript.\n    2. VERIFY: You must find content that specifically matches this Video ID. \n       - Do NOT hallucinate content based on keywords in the URL.\n       - Do NOT provide generic advice. \n       - If you cannot find the specific video details (title + content), return an error.\n    3. GENERATE:\n       - Summarize the ACTUAL video content into 3 key bullet points.\n       - Create a detailed image generation prompt adhering to this style: \""
    ++ styleDesc
    ++ strL "\".\n    \n    Output Format (JSON Only):\n    \x7b\n      \"videoTitle\": \"The exact title of the video found\",\n      \"summary\": \"1. [Key Point 1]\n2. [Key Point 2]\n3. [Key Point 3]\",\n      \"imagePrompt\": \"The detailed image generation prompt...\"\n    \x7d\n    OR\n    \x7b\n      \"error\": \"Reason why video content could not be verified...\"\n    \x7d\n\n    Return ONLY valid JSON. No markdown formatting.\n  "

/-- The analysis step end to end, with the model call abstracted by its
reply: the first component is the instruction text sent to the model,
the second the parsed outcome of the given reply. -/
def analyzeVideoContent (videoUrl : Str) (style : VisualStyle)
    (customStylePrompt : Option Str) (replyText : Str) :
    Str × Except Str AnalysisResponse :=
  (promptText videoUrl (extractVideoId videoUrl)
     (styleDescription style customStylePrompt),
   analyzeReply replyText)

/-! ## Image synthesis (`geminiService.ts` lines 161-190) -/

/-- The inline payload of a response part (`inlineData.data` is the
base64 text; it may be absent). -/
structure InlineData where
  data : Option Str

/-- One content part of the image-model response (named `RespPart`; the
source calls it `Part`, which collides with a Mathlib name). -/
structure RespPart where
  text : Option Str
  inlineData : Option InlineData

/-- The content of a response candidate. -/
structure Content where
  parts : Option (List RespPart)

/-- One candidate of the image-model response; `content` is optional in
the SDK (e.g. a safety-blocked candidate carries only a
`finishReason`). -/
structure Candidate where
  content : Option Content

/-- The image-model response; `candidates` may be absent. -/
structure GenResponse where
  candidates : Option (List Candidate)

/-- `"No image data found in response."` -/
def noImageMsg : Str := strL "No image data found in response."

/-- The `TypeError` message raised by `response.candidates[0].content`
when `candidates` is a present but empty array (an empty array is truthy
in JavaScript, and indexing it yields `undefined`). -/
def undefinedContentMsg : Str :=
  strL "Cannot read properties of undefined (reading 'content')"

/-- The `TypeError` message raised by
`response.candidates[0].content.parts` when the first candidate carries
no `content` object. -/
def undefinedPartsMsg : Str :=
  strL "Cannot read properties of undefined (reading 'parts')"

/-- The data-URI tag prepended to the extracted base64 payload. -/
def dataUriPng : Str := strL "data:image/png;base64,"

/-- The part-scanning loop: the first part whose `inlineData` is present
with a truthy (non-empty) `data` wins. -/
def firstInlineData : List RespPart → Option Str
  | [] => none
  | p :: rest =>
    match p.inlineData with
    | some idata =>
      match idata.data with
      | some d => if d.isEmpty then firstInlineData rest else some d
      | none => firstInlineData rest
    | none => firstInlineData rest

/-- `generateInfographic`, with the model call abstracted by its
response: scan the first candidate for inline image data and wrap it in
a data URI; when the guarding condition is falsy (absent `candidates` or
absent `parts`), or the loop finds nothing, throw `noImageMsg`; a
present-but-empty `candidates` array passes the truthiness guard and
crashes on `candidates[0].content` with a `TypeError`, and a first
candidate without a `content` object crashes one read later, on
`.parts` of `undefined`. -/
def generateInfographic (r : GenResponse) : Except Str Str :=
  match r.candidates with
  | none => .error noImageMsg
  | some [] => .error undefinedContentMsg
  | some (c :: _) =>
    match c.content with
    | none => .error undefinedPartsMsg
    | some content =>
      match content.parts with
      | none => .error noImageMsg
      | some parts =>
        match firstInlineData parts with
        | some d => .ok (dataUriPng ++ d)
        | none => .error noImageMsg

/-! ## Credential-selection capability (`geminiService.ts` lines 9-22) -/

/-- The optional AI-Studio host wrapper: `hasSelectedApiKey` is `some b`
when the capability is present and callable and would resolve to `b`,
`none` when the member is missing or not a function. -/
structure Aistudio where
  hasSelectedApiKey : Option Bool

/-- `checkApiKeySelection`: query the host capability when it is present
and callable, and otherwise report `true` (fail open). -/
def checkApiKeySelection (win : Option Aistudio) : Bool :=
  match win with
  | some a =>
    match a.hasSelectedApiKey with
    | some b => b
    | none => true
  | none => true

/-! ## Orchestration (`App.tsx` in both variants) -/

/-- The request-lifecycle states of `AppStatus`. -/
inductive AppStatus where
  | IDLE
  | ANALYZING
  | GENERATING
  | COMPLETE
  | ERROR
deriving DecidableEq

/-- The terminal artifact of one request. -/
structure GenerationResult where
  imageUrl : Str
  summary : Json
  videoTitle : Option Json

/-- The component state handled by `handleGenerate`. -/
structure AppState where
  status : AppStatus
  result : Option GenerationResult
  error : Option Str

/-- `"Please enter a valid YouTube URL."` -/
def emptyUrlMsg : Str := strL "Please enter a valid YouTube URL."

/-- `"Something went wrong. Please try again."`, the `err.message ||`
fallback of the catch block. -/
def fallbackMsg : Str := strL "Something went wrong. Please try again."

/-- `setError(err.message || fallback)`: an empty (falsy) message falls
back. -/
def surfaced (m : Str) : Str := if m.isEmpty then fallbackMsg else m

/-- The shared try/catch body of both `handleGenerate` variants, entered
after the guards: status moves to `ANALYZING` and `error`/`result` are
cleared; a failing analysis or image step lands in the catch block,
which surfaces the failure message and moves to `ERROR`; on success the
`GenerationResult` is assembled from both steps and status reaches
`COMPLETE`.  The two network calls are abstracted by their outcomes. -/
def generateBody (analyze : Except Str AnalysisResponse)
    (genImage : Json → Except Str Str) : AppState :=
  match analyze with
  | .error m => { status := .ERROR, result := none, error := some (surfaced m) }
  | .ok analysis =>
    match genImage analysis.imagePrompt with
    | .error m => { status := .ERROR, result := none, error := some (surfaced m) }
    | .ok imageUrl =>
      { status := .COMPLETE,
        result := some { imageUrl := imageUrl, summary := analysis.summary,
                         videoTitle := analysis.videoTitle },
        error := none }

/-- `handleGenerate` of the first `App` variant: an all-whitespace URL
only sets the error message (status, result untouched); otherwise the
try/catch body runs.  (The best-effort key-selection call before the try
block does not alter the generation flow.) -/
def handleGenerateApp (st : AppState) (url : Str)
    (analyze : Except Str AnalysisResponse)
    (genImage : Json → Except Str Str) : AppState :=
  if (jsTrim url).isEmpty then { st with error := some emptyUrlMsg }
  else generateBody analyze genImage

/-- `handleGenerate` of the second (free-tier) `App` variant: the URL
guard as above; then, past the free tier without a selected key, the
upgrade modal is shown and nothing else happens; otherwise the try/catch
body runs and a success increments the usage counter. -/
def handleGenerateMind (st : AppState) (url : Str) (generationsUsed : Nat)
    (keySelected : Bool) (analyze : Except Str AnalysisResponse)
    (genImage : Json → Except Str Str) : AppState × Nat :=
  if (jsTrim url).isEmpty then ({ st with error := some emptyUrlMsg }, generationsUsed)
  else if !decide (generationsUsed < 3) && !keySelected then (st, generationsUsed)
  else
    let st1 := generateBody analyze genImage
    (st1, if st1.status = .COMPLETE then generationsUsed + 1 else generationsUsed)

/-! ## Specification-side descriptions

Definitions that follow the wording of the specification (not the
source), used to compare the implementation against the spec. -/

/-- The prefix of `s` up to (excluding) the first occurrence of `sub`;
all of `s` when `sub` does not occur. -/
def takeUntilSub : Str → Str → Str
  | [], _ => []
  | c :: t, sub => if startsWithB (c :: t) sub then [] else c :: takeUntilSub t sub

/-- The suffix of `s` after the first occurrence of `sub`; empty when
`sub` does not occur. -/
def afterFirstSub : Str → Str → Str
  | [], _ => []
  | c :: t, sub =>
    if startsWithB (c :: t) sub then (c :: t).drop sub.length else afterFirstSub t sub

/-- Spec-side reading of the image response: the first inline payload,
taken from the first candidate only. -/
def firstInlineOf (r : GenResponse) : Option Str :=
  match r.candidates with
  | some (c :: _) =>
    match c.content with
    | some content =>
      match content.parts with
      | some ps => firstInlineData ps
      | none => none
    | none => none
  | _ => none

/-! ## Helper lemmas -/

theorem isEmpty_false_of_ne {t : Str} (h : t ≠ []) : t.isEmpty = false := by
  cases t with
  | nil => exact absurd rfl h
  | cons c t => rfl

theorem jsGet_val (d : Json) (k : Str) (hd : d ≠ Json.jnull) :
    jsGet d k = .val (jsGetD d k) := by
  cases d <;> simp_all [jsGet, jsGetD]

theorem jsToString_jstr (f : Nat) (v : Str) (hf : f ≠ 0) :
    jsToString f (Json.jstr v) = v := by
  cases f with
  | zero => exact absurd rfl hf
  | succ n => rfl

/-! ## Claims -/

/-- C8: for every variant of the `VisualStyle` enumeration the derived
`styleDescription` is non-empty; the `Custom` variant with absent or
empty custom text resolves to the default
`"A creative data visualization."`, and with non-empty custom text to
that text verbatim. -/
theorem c8_style_description_nonempty :
    (∀ style custom, (styleDescription style custom).isEmpty = false)
    ∧ styleDescription VisualStyle.CUSTOM none = customDefault
    ∧ ∀ s, styleDescription VisualStyle.CUSTOM (some s)
        = if s = [] then customDefault else s := by
  refine ⟨?_, rfl, ?_⟩
  · intro style custom
    cases style with
    | WHITEBOARD => rfl
    | NOTEBOOK => rfl
    | CUSTOM =>
      cases custom with
      | none => rfl
      | some s => cases s with
        | nil => rfl
        | cons c t => simp [styleDescription]
  · intro s
    rfl

/-- C9: `checkApiKeySelection` reports `true` whenever the hosting
environment does not provide the `hasSelectedApiKey` capability (absent
wrapper object or absent/uncallable member), and reports the
capability's boolean result when it is present and callable. -/
theorem c9_check_api_key_fail_open :
    checkApiKeySelection none = true
    ∧ (∀ a : Aistudio, a.hasSelectedApiKey = none →
        checkApiKeySelection (some a) = true)
    ∧ ∀ b, checkApiKeySelection (some { hasSelectedApiKey := some b }) = b := by
  refine ⟨rfl, ?_, fun b => rfl⟩
  intro a h
  simp [checkApiKeySelection, h]

/-- Witness for C9 at a concrete wrapper without the capability. -/
theorem c9_check_api_key_fail_open_witness :
    checkApiKeySelection (some { hasSelectedApiKey := none }) = true :=
  c9_check_api_key_fail_open.2.1 { hasSelectedApiKey := none } rfl

/-- C7: the two documented URL shapes extract `"ABC123"` and `"XYZ789"`
respectively, and a URL containing neither `"v="` nor `"youtu.be/"`
leaves the identifier empty while the request still proceeds: the
analysis step is still performed, its prompt carrying the empty
identifier and its outcome determined by the model reply alone. -/
theorem c7_video_id_extraction :
    extractVideoId (strL "https://www.youtube.com/watch?v=ABC123&t=5") = strL "ABC123"
    ∧ extractVideoId (strL "https://youtu.be/XYZ789?foo=1") = strL "XYZ789"
    ∧ ∀ url, containsSubstr url (strL "v=") = false →
        containsSubstr url (strL "youtu.be/") = false →
        extractVideoId url = []
        ∧ ∀ style custom reply,
            analyzeVideoContent url style custom reply
              = (promptText url [] (styleDescription style custom), analyzeReply reply) := by
  refine ⟨by decide, by decide, ?_⟩
  intro url h1 h2
  have hid : extractVideoId url = [] := by
    simp [extractVideoId, h1, h2]
  exact ⟨hid, fun style custom reply => by simp [analyzeVideoContent, hid]⟩

/-- Witness for C7 at a URL matching neither shape. -/
theorem c7_video_id_extraction_witness :
    extractVideoId (strL "https://example.com/page") = []
    ∧ analyzeVideoContent (strL "https://example.com/page") VisualStyle.WHITEBOARD
        none (strL "hi")
      = (promptText (strL "https://example.com/page") []
           (styleDescription VisualStyle.WHITEBOARD none),
         analyzeReply (strL "hi")) := by
  have h := c7_video_id_extraction.2.2 (strL "https://example.com/page")
    (by decide) (by decide)
  exact ⟨h.1, h.2 VisualStyle.WHITEBOARD none (strL "hi")⟩

/-- C5: in both `handleGenerate` variants a `GenerationResult` is
assembled exactly when the analysis step and the image step both
succeed, and then the state reaches `COMPLETE`; a failure of either step
drives the state to `ERROR` with no result and the failure message
surfaced verbatim (every message the service throws is non-empty, so the
`err.message ||` fallback never replaces it).  Both variants run this
shared body once their input guards pass. -/
theorem c5_result_only_after_both_steps :
    (∀ analyze genImage r, (generateBody analyze genImage).result = some r →
       ∃ a u, analyze = Except.ok a ∧ genImage a.imagePrompt = Except.ok u
         ∧ r = { imageUrl := u, summary := a.summary, videoTitle := a.videoTitle }
         ∧ (generateBody analyze genImage).status = AppStatus.COMPLETE)
    ∧ (∀ genImage m, m ≠ [] →
        generateBody (Except.error m) genImage
          = { status := AppStatus.ERROR, result := none, error := some m })
    ∧ (∀ genImage a m, m ≠ [] → genImage a.imagePrompt = Except.error m →
        generateBody (Except.ok a) genImage
          = { status := AppStatus.ERROR, result := none, error := some m })
    ∧ (∀ st url analyze genImage, jsTrim url ≠ [] →
        handleGenerateApp st url analyze genImage = generateBody analyze genImage)
    ∧ (∀ st url used key analyze genImage, jsTrim url ≠ [] →
        (used < 3 ∨ key = true) →
        (handleGenerateMind st url used key analyze genImage).1
          = generateBody analyze genImage) := by
  refine ⟨?_, ?_, ?_, ?_, ?_⟩
  · intro analyze genImage r h
    match hA : analyze with
    | .error m => simp [generateBody, hA] at h
    | .ok a =>
      match hG : genImage a.imagePrompt with
      | .error m => simp [generateBody, hA, hG] at h
      | .ok u =>
        refine ⟨a, u, rfl, hG, ?_, ?_⟩
        · simp [generateBody, hG] at h
          exact h.symm
        · simp [generateBody, hG]
  · intro genImage m hm
    simp [generateBody, surfaced, isEmpty_false_of_ne hm]
  · intro genImage a m hm hG
    simp [generateBody, hG, surfaced, isEmpty_false_of_ne hm]
  · intro st url analyze genImage hu
    simp [handleGenerateApp, isEmpty_false_of_ne hu]
  · intro st url used key analyze genImage hu hguard
    have : (!decide (used < 3) && !key) = false := by
      rcases hguard with h | h
      · simp [h]
      · simp [h]
    simp [handleGenerateMind, isEmpty_false_of_ne hu, this]

/-- Witness for C5: a failing analysis step at concrete inputs yields the
error state with the message surfaced verbatim. -/
theorem c5_result_only_after_both_steps_witness :
    generateBody (Except.error (strL "boom")) (fun _ => Except.ok (strL "u"))
      = { status := AppStatus.ERROR, result := none, error := some (strL "boom") } :=
  c5_result_only_after_both_steps.2.1 (fun _ => Except.ok (strL "u"))
    (strL "boom") (by decide)

/-- C6 counterexample: a response whose `candidates` list is present but
empty carries no inline image data, yet `generateInfographic` does not
fail with the no-image-data error: the truthy empty array passes the
guard and the read of `candidates[0].content` throws a `TypeError`.
Likewise a non-empty `candidates` list whose first candidate carries no
`content` object (e.g. a safety-blocked candidate) crashes reading
`.parts` of `undefined` instead of failing with the no-image-data
error. -/
theorem c6_counterexample_empty_candidates :
    firstInlineOf { candidates := some [] } = none
    ∧ generateInfographic { candidates := some [] }
        = Except.error undefinedContentMsg
    ∧ undefinedContentMsg ≠ noImageMsg
    ∧ firstInlineOf { candidates := some [{ content := none }] } = none
    ∧ generateInfographic { candidates := some [{ content := none }] }
        = Except.error undefinedPartsMsg
    ∧ undefinedPartsMsg ≠ noImageMsg := by
  refine ⟨rfl, rfl, ?_, rfl, rfl, ?_⟩ <;> decide

/-- C6 (amended): for every response whose `candidates` list, when
present, is non-empty and whose first candidate carries a `content`
object, `generateInfographic` returns the data URI of the first part of
the first candidate carrying non-empty inline data, and fails with the
no-image-data error when no such part exists (including absent
`candidates`, absent `parts` and an empty `parts` list); the documented
example with a text part before an inline part yields
`"data:image/png;base64,QQ=="`.  A present-but-empty `candidates` list
instead crashes with a `TypeError` on `candidates[0].content`, and a
first candidate without `content` crashes with a `TypeError` on its
`.parts` read. -/
theorem c6_image_extraction_amended :
    (∀ r : GenResponse,
       (∀ cs, r.candidates = some cs → cs ≠ []) →
       (∀ c rest, r.candidates = some (c :: rest) → c.content ≠ none) →
       generateInfographic r
         = match firstInlineOf r with
           | some d => Except.ok (dataUriPng ++ d)
           | none => Except.error noImageMsg)
    ∧ generateInfographic
        { candidates :=
            some [{ content :=
                      some { parts :=
                               some [{ text := some (strL "caption"),
                                       inlineData := none },
                                     { text := none,
                                       inlineData :=
                                         some { data := some (strL "QQ==") } }] } }] }
        = Except.ok (strL "data:image/png;base64,QQ==")
    ∧ generateInfographic
        { candidates :=
            some [{ content :=
                      some { parts :=
                               some [{ text := some (strL "caption"),
                                       inlineData := none }] } }] }
        = Except.error noImageMsg := by
  refine ⟨?_, rfl, rfl⟩
  intro r h hcontent
  match hc : r.candidates with
  | none => simp [generateInfographic, firstInlineOf, hc]
  | some [] => exact absurd rfl (h [] hc)
  | some (c :: rest) =>
    match hct : c.content with
    | none => exact absurd hct (hcontent c rest hc)
    | some content =>
      match hp : content.parts with
      | none => simp [generateInfographic, firstInlineOf, hc, hct, hp]
      | some parts =>
        match hf : firstInlineData parts with
        | some d => simp [generateInfographic, firstInlineOf, hc, hct, hp, hf]
        | none => simp [generateInfographic, firstInlineOf, hc, hct, hp, hf]

/-- Witness for C6 at a concrete response with no inline part. -/
theorem c6_image_extraction_amended_witness :
    generateInfographic { candidates := none } = Except.error noImageMsg := by
  have h := c6_image_extraction_amended.1 { candidates := none }
    (fun cs hcs => by simp at hcs) (fun c rest hcs => by simp at hcs)
  simpa using h

theorem analyzeReply_ne {t : Str} (ht : t ≠ []) :
    analyzeReply t = tryParse t (candidateOf t) := by
  unfold analyzeReply
  rw [isEmpty_false_of_ne ht]
  simp

theorem catchHandler_refusal {text : Str} (emsg : Str)
    (href : refusalAny text = true) :
    catchHandler text emsg = Except.error text := by
  unfold catchHandler
  rw [href]
  simp

theorem catchHandler_rethrow {text emsg : Str} (href : refusalAny text = false)
    (hne : emsg ≠ []) (hj : containsSubstr emsg (strL "JSON") = false) :
    catchHandler text emsg = Except.error emsg := by
  unfold catchHandler
  rw [href]
  simp [isEmpty_false_of_ne hne, hj]

theorem catchHandler_generic {text emsg : Str} (href : refusalAny text = false)
    (hj : containsSubstr emsg (strL "JSON") = true) :
    catchHandler text emsg = Except.error genericMsg := by
  unfold catchHandler
  rw [href]
  simp [hj]

theorem tryParse_parse_fail (text : Str) {jsonStr : Str}
    (hp : jsonParse jsonStr = none) :
    tryParse text jsonStr = catchHandler text syntaxErrMsg := by
  unfold tryParse
  rw [hp]

theorem tryParse_error_field (text : Str) {jsonStr : Str} {d : Json} {v : Str}
    (hp : jsonParse jsonStr = some d) (hd : d ≠ Json.jnull)
    (he : jsGetD d errorKey = some (Json.jstr v)) (hv : v ≠ []) :
    tryParse text jsonStr = catchHandler text v := by
  unfold tryParse
  rw [hp]
  show (match jsGet d errorKey with
        | .typeErr => catchHandler text nullReadErrMsg
        | .val errField =>
          if truthy errField then
            catchHandler text
              (jsToString (2 * jsonStr.length + 8) (errField.getD Json.jnull))
          else if !(truthy (jsGetD d summaryKey) && truthy (jsGetD d imagePromptKey)) then
            catchHandler text incompleteMsg
          else
            .ok { summary := (jsGetD d summaryKey).getD Json.jnull,
                  imagePrompt := (jsGetD d imagePromptKey).getD Json.jnull,
                  videoTitle := jsGetD d videoTitleKey })
      = catchHandler text v
  rw [jsGet_val d errorKey hd, he]
  have htr : truthy (some (Json.jstr v)) = true := by
    simp [truthy, isEmpty_false_of_ne hv]
  simp only [htr, if_true, Option.getD_some]
  rw [jsToString_jstr _ v (by omega)]

theorem tryParse_incomplete (text : Str) {jsonStr : Str} {d : Json}
    (hp : jsonParse jsonStr = some d) (hd : d ≠ Json.jnull)
    (herr : truthy (jsGetD d errorKey) = false)
    (hmiss : (truthy (jsGetD d summaryKey) && truthy (jsGetD d imagePromptKey)) = false) :
    tryParse text jsonStr = catchHandler text incompleteMsg := by
  unfold tryParse
  rw [hp]
  show (match jsGet d errorKey with
        | .typeErr => catchHandler text nullReadErrMsg
        | .val errField =>
          if truthy errField then
            catchHandler text
              (jsToString (2 * jsonStr.length + 8) (errField.getD Json.jnull))
          else if !(truthy (jsGetD d summaryKey) && truthy (jsGetD d imagePromptKey)) then
            catchHandler text incompleteMsg
          else
            .ok { summary := (jsGetD d summaryKey).getD Json.jnull,
                  imagePrompt := (jsGetD d imagePromptKey).getD Json.jnull,
                  videoTitle := jsGetD d videoTitleKey })
      = catchHandler text incompleteMsg
  rw [jsGet_val d errorKey hd]
  simp only [herr, hmiss, Bool.false_eq_true, if_false, Bool.not_false, if_true]

/-- C1 counterexample: the reply is exactly a JSON object with an
`error` field whose value is `"The video is unavailable"`, yet the
surfaced message is the whole raw reply, not the field value: the throw
of the field value is caught by the same catch block, whose
refusal-phrase scan of the raw text (here hitting `"unavailable"`)
replaces the message with the full reply. -/
theorem c1_counterexample_refusal_in_raw :
    jsonParse (candidateOf (strL "\x7b\"error\":\"The video is unavailable\"\x7d"))
      = some (Json.jobj [(strL "error", Json.jstr (strL "The video is unavailable"))])
    ∧ analyzeReply (strL "\x7b\"error\":\"The video is unavailable\"\x7d")
        = Except.error (strL "\x7b\"error\":\"The video is unavailable\"\x7d")
    ∧ strL "\x7b\"error\":\"The video is unavailable\"\x7d"
        ≠ strL "The video is unavailable" := by
  refine ⟨rfl, rfl, ?_⟩
  decide

/-- C1 (amended): a reply whose candidate parses to an object carrying a
non-empty string `error` field fails with exactly that value as the
message, provided the lowercased raw reply contains no refusal phrase
and the value does not contain `"JSON"`; when a refusal phrase occurs in
the raw reply, the raw reply itself is surfaced instead. -/
theorem c1_error_field_surfaced (t v : Str) (d : Json)
    (ht : t ≠ [])
    (hp : jsonParse (candidateOf t) = some d)
    (hd : d ≠ Json.jnull)
    (he : jsGetD d errorKey = some (Json.jstr v))
    (hv : v ≠ [])
    (href : refusalAny t = false)
    (hj : containsSubstr v (strL "JSON") = false) :
    analyzeReply t = Except.error v := by
  rw [analyzeReply_ne ht, tryParse_error_field t hp hd he hv,
      catchHandler_rethrow href hv hj]

/-- Witness for C1 at the concrete reply `\x7b"error":"bad video"\x7d`. -/
theorem c1_error_field_surfaced_witness :
    analyzeReply (strL "\x7b\"error\":\"bad video\"\x7d")
      = Except.error (strL "bad video") :=
  c1_error_field_surfaced (strL "\x7b\"error\":\"bad video\"\x7d")
    (strL "bad video")
    (Json.jobj [(strL "error", Json.jstr (strL "bad video"))])
    (by decide) rfl (by simp) rfl (by decide) rfl rfl

/-- C2 counterexample: the reply `\x7b"summary":"sorry"\x7d` parses to an
object without `error` and without `imagePrompt`, yet the failure is not
the incomplete-data error: the refusal-phrase scan of the raw reply hits
`"sorry"` and surfaces the raw reply instead. -/
theorem c2_counterexample_refusal_in_raw :
    jsonParse (candidateOf (strL "\x7b\"summary\":\"sorry\"\x7d"))
      = some (Json.jobj [(strL "summary", Json.jstr (strL "sorry"))])
    ∧ analyzeReply (strL "\x7b\"summary\":\"sorry\"\x7d")
        = Except.error (strL "\x7b\"summary\":\"sorry\"\x7d")
    ∧ strL "\x7b\"summary\":\"sorry\"\x7d" ≠ incompleteMsg := by
  refine ⟨rfl, rfl, ?_⟩
  decide

/-- C2 (amended): a reply whose candidate parses to an object with a
falsy `error` field and a falsy `summary` or `imagePrompt` fails with
the incomplete-data message `"Incomplete analysis data received."`,
provided the lowercased raw reply contains no refusal phrase (a refusal
phrase in the raw reply surfaces the raw reply instead); in particular the reply
`\x7b"summary":"s"\x7d` raises it (see the witness). -/
theorem c2_incomplete_data (t : Str) (d : Json)
    (ht : t ≠ [])
    (hp : jsonParse (candidateOf t) = some d)
    (hd : d ≠ Json.jnull)
    (herr : truthy (jsGetD d errorKey) = false)
    (hmiss : (truthy (jsGetD d summaryKey) && truthy (jsGetD d imagePromptKey)) = false)
    (href : refusalAny t = false) :
    analyzeReply t = Except.error incompleteMsg := by
  rw [analyzeReply_ne ht, tryParse_incomplete t hp hd herr hmiss,
      catchHandler_rethrow href (by decide) (by decide)]

/-- Witness for C2 at the concrete reply `\x7b"summary":"s"\x7d`. -/
theorem c2_incomplete_data_witness :
    analyzeReply (strL "\x7b\"summary\":\"s\"\x7d")
      = Except.error incompleteMsg :=
  c2_incomplete_data (strL "\x7b\"summary\":\"s\"\x7d")
    (Json.jobj [(strL "summary", Json.jstr (strL "s"))])
    (by decide) rfl (by simp) rfl rfl rfl

/-- C3: when the extracted candidate fails JSON parsing, the failure is
the raw reply itself if the lowercased reply contains a refusal phrase,
and the generic invalid-format message otherwise (the `SyntaxError`
message mentions `JSON`, so the rethrow branch never fires for it). -/
theorem c3_unparsable_reply (t : Str) (ht : t ≠ [])
    (hp : jsonParse (candidateOf t) = none) :
    analyzeReply t = Except.error (if refusalAny t then t else genericMsg) := by
  rw [analyzeReply_ne ht, tryParse_parse_fail t hp]
  by_cases h : refusalAny t = true
  · rw [catchHandler_refusal _ h, if_pos h]
  · have hf : refusalAny t = false := by simpa using h
    rw [catchHandler_generic hf (by decide), if_neg h]

/-- Witness for C3 at a concrete unparsable refusal reply. -/
theorem c3_unparsable_reply_witness :
    analyzeReply (strL "sorry, no") = Except.error (strL "sorry, no") := by
  have h := c3_unparsable_reply (strL "sorry, no") (by decide) rfl
  rwa [if_pos (by decide)] at h

/-- C4: candidate selection order, first match wins: a reply whose
trimmed text matches the fenced-block regex uses the block's inner group;
otherwise, when the first `\x7b` precedes the last `\x7d`, the inclusive
substring between them; otherwise the trimmed text itself.  The fenced
reply around `\x7b"summary":"s","imagePrompt":"p"\x7d` parses to exactly
that object. -/
theorem c4_candidate_selection_order :
    (∀ t inner, fenceSearch (jsTrim t) = some inner → candidateOf t = inner)
    ∧ (∀ t i j, fenceSearch (jsTrim t) = none →
        firstIdxChar (jsTrim t) lbrace = some i →
        lastIdxChar (jsTrim t) rbrace = some j → j > i →
        candidateOf t = sliceIncl (jsTrim t) i j)
    ∧ (∀ t, fenceSearch (jsTrim t) = none →
        (firstIdxChar (jsTrim t) lbrace = none
         ∨ lastIdxChar (jsTrim t) rbrace = none
         ∨ ∀ i j, firstIdxChar (jsTrim t) lbrace = some i →
             lastIdxChar (jsTrim t) rbrace = some j → ¬ j > i) →
        candidateOf t = jsTrim t)
    ∧ analyzeReply (strL "```json\n\x7b\"summary\":\"s\",\"imagePrompt\":\"p\"\x7d\n```")
        = Except.ok { summary := Json.jstr (strL "s"),
                      imagePrompt := Json.jstr (strL "p"), videoTitle := none } := by
  refine ⟨?_, ?_, ?_, rfl⟩
  · intro t inner h
    unfold candidateOf extractCandidate
    rw [h]
  · intro t i j hf h1 h2 hij
    unfold candidateOf extractCandidate
    rw [hf, h1, h2]
    simp [hij]
  · intro t hf hd
    unfold candidateOf extractCandidate
    rw [hf]
    cases h1 : firstIdxChar (jsTrim t) lbrace with
    | none => simp
    | some i =>
      cases h2 : lastIdxChar (jsTrim t) rbrace with
      | none => simp
      | some j =>
        rcases hd with h | h | h
        · rw [h1] at h; cases h
        · rw [h2] at h; cases h
        · simp [h i j h1 h2]

/-- Witness for C4: the first-to-last-brace rule at a concrete unfenced
reply. -/
theorem c4_candidate_selection_order_witness :
    candidateOf (strL "x\x7ba\x7dy") = strL "\x7ba\x7d" := by
  have h := c4_candidate_selection_order.2.1 (strL "x\x7ba\x7dy") 1 3
    rfl rfl rfl (by omega)
  rw [h]
  rfl

theorem splitGo_fuel_irrel (s0 : Char) (srest : Str) :
    ∀ f1 f2 hay cur, hay.length < f1 → hay.length < f2 →
      splitGo f1 s0 srest hay cur = splitGo f2 s0 srest hay cur := by
  intro f1
  induction f1 with
  | zero => intro f2 hay cur h1; omega
  | succ f1 ih =>
    intro f2 hay cur h1 h2
    cases f2 with
    | zero => omega
    | succ f2 =>
      cases hay with
      | nil => rfl
      | cons c rest =>
        simp only [splitGo]
        by_cases hb : (c == s0 && startsWithB rest srest) = true
        · rw [hb]
          simp only [if_true]
          have hlt : (rest.drop srest.length).length < f1 := by
            have := List.length_drop srest.length rest
            simp at h1
            omega
          have hlt2 : (rest.drop srest.length).length < f2 := by
            have := List.length_drop srest.length rest
            simp at h2
            omega
          rw [ih f2 (rest.drop srest.length) [] hlt hlt2]
        · rw [Bool.not_eq_true] at hb
          rw [hb]
          simp only [Bool.false_eq_true, if_false]
          have hlt : rest.length < f1 := by simp at h1; omega
          have hlt2 : rest.length < f2 := by simp at h2; omega
          rw [ih f2 rest (c :: cur) hlt hlt2]

theorem splitGo_spec (s0 : Char) (srest : Str) :
    ∀ fuel hay cur, hay.length < fuel →
      splitGo fuel s0 srest hay cur
        = (cur.reverse ++ takeUntilSub hay (s0 :: srest))
            :: (if containsSubstr hay (s0 :: srest) = true
                then splitOnSub (afterFirstSub hay (s0 :: srest)) (s0 :: srest)
                else []) := by
  intro fuel
  induction fuel with
  | zero => intro hay cur h; omega
  | succ fuel ih =>
    intro hay cur h
    cases hay with
    | nil =>
      simp [splitGo, takeUntilSub, containsSubstr]
    | cons c rest =>
      have hsw : startsWithB (c :: rest) (s0 :: srest)
          = (c == s0 && startsWithB rest srest) := rfl
      simp only [splitGo]
      by_cases hb : (c == s0 && startsWithB rest srest) = true
      · rw [hb]
        simp only [if_true]
        have hcont : containsSubstr (c :: rest) (s0 :: srest) = true := by
          simp [containsSubstr, hsw, hb]
        have htake : takeUntilSub (c :: rest) (s0 :: srest) = [] := by
          simp [takeUntilSub, hsw, hb]
        have hafter : afterFirstSub (c :: rest) (s0 :: srest)
            = rest.drop srest.length := by
          simp [afterFirstSub, hsw, hb, List.drop_succ_cons]
        rw [hcont]
        simp only [if_true, htake, hafter, List.append_nil]
        unfold splitOnSub
        have hlt : (rest.drop srest.length).length < fuel := by
          have := List.length_drop srest.length rest
          simp at h
          omega
        rw [splitGo_fuel_irrel s0 srest fuel ((rest.drop srest.length).length + 1)
          (rest.drop srest.length) [] hlt (by omega)]
      · rw [Bool.not_eq_true] at hb
        rw [hb]
        simp only [Bool.false_eq_true, if_false]
        have hlt : rest.length < fuel := by simp at h; omega
        rw [ih rest (c :: cur) hlt]
        have hcont : containsSubstr (c :: rest) (s0 :: srest)
            = containsSubstr rest (s0 :: srest) := by
          simp [containsSubstr, hsw, hb]
        have htake : takeUntilSub (c :: rest) (s0 :: srest)
            = c :: takeUntilSub rest (s0 :: srest) := by
          simp [takeUntilSub, hsw, hb]
        have hafter : afterFirstSub (c :: rest) (s0 :: srest)
            = afterFirstSub rest (s0 :: srest) := by
          simp [afterFirstSub, hsw, hb]
        rw [hcont, htake, hafter]
        simp

theorem splitOnSub_head (hay : Str) (s0 : Char) (srest : Str) :
    (splitOnSub hay (s0 :: srest)).getD 0 [] = takeUntilSub hay (s0 :: srest) := by
  show (splitGo (hay.length + 1) s0 srest hay []).getD 0 [] = _
  rw [splitGo_spec s0 srest (hay.length + 1) hay [] (by omega)]
  simp

theorem splitOnSub_second (hay : Str) (s0 : Char) (srest : Str)
    (h : containsSubstr hay (s0 :: srest) = true) :
    (splitOnSub hay (s0 :: srest)).getD 1 []
      = takeUntilSub (afterFirstSub hay (s0 :: srest)) (s0 :: srest) := by
  show (splitGo (hay.length + 1) s0 srest hay []).getD 1 [] = _
  rw [splitGo_spec s0 srest (hay.length + 1) hay [] (by omega), h]
  simp only [if_true, List.getD_cons_succ]
  exact splitOnSub_head _ s0 srest

/-- C10 counterexample: in `"v=abv=cd&x"` the text between the first
`"v="` and the next `"&"` is `"abv=cd"`, but the identifier the code
extracts is `"ab"`: `split("v=")[1]` ends at the second `"v="`
occurrence, not at the next `"&"`. -/
theorem c10_counterexample_double_v :
    containsSubstr (strL "v=abv=cd&x") (strL "v=") = true
    ∧ extractVideoId (strL "v=abv=cd&x") = strL "ab"
    ∧ takeUntilSub (afterFirstSub (strL "v=abv=cd&x") (strL "v=")) (strL "&")
        = strL "abv=cd"
    ∧ strL "ab" ≠ strL "abv=cd" := by
  refine ⟨rfl, rfl, rfl, ?_⟩
  decide

/-- C10 (amended): the `"v="` shape is checked first: for every URL
containing `"v="` the identifier is the text after the first `"v="`,
truncated at the next (non-overlapping) occurrence of `"v="` and then at
the first `"&"` of what remains — the `youtu.be` rule is never applied,
as the short-link example with a `"v="` query parameter shows. -/
theorem c10_v_shape_precedence :
    (∀ url, containsSubstr url (strL "v=") = true →
       extractVideoId url
         = takeUntilSub
             (takeUntilSub (afterFirstSub url (strL "v=")) (strL "v="))
             (strL "&"))
    ∧ extractVideoId (strL "https://youtu.be/XYZ?v=1") = strL "1"
    ∧ strL "1" ≠ strL "XYZ" := by
  refine ⟨?_, rfl, by decide⟩
  intro url h
  unfold extractVideoId
  rw [if_pos h]
  show (splitOnSub ((splitOnSub url ('v' :: ['='])).getD 1 []) ('&' :: [])).getD 0 []
      = _
  rw [splitOnSub_second url 'v' ['='] h, splitOnSub_head]
  rfl

/-- Witness for C10 at a concrete single-`"v="` URL. -/
theorem c10_v_shape_precedence_witness :
    extractVideoId (strL "watch?v=ID&t=1") = strL "ID" := by
  have h := c10_v_shape_precedence.1 (strL "watch?v=ID&t=1") (by decide)
  rw [h]
  rfl
